import Mathlib

/-!
Verification of the svg-designer vector-path geometry engine.

The JavaScript sources are embedded shallowly:

* JS numbers are modelled as exact rationals (`ℚ`).  Every arithmetic
  operation the embedded code performs on finite inputs (addition,
  subtraction, multiplication, division by constants) is exact, so no
  rounding model is needed for the properties below.
* The IEEE special values `Infinity`, `-Infinity` and `NaN`, which the
  bounding-box combiner manufactures via its `±Infinity` seeds, are
  modelled by the dedicated type `ERat` below, with `min`/`max`/`+`/`-`
  following the JS `Math.min`/`Math.max` and float-arithmetic rules.
* Thrown JS exceptions are modelled with `Except String`.
* A JS variable that can hold `null` is modelled as an `Option`.
-/

deriving instance DecidableEq for Except

namespace SvgDesigner

/-- A 2D point, the JS typedef Point = [number, number]. -/
abbrev Point : Type := ℚ × ℚ

/-- PointMath.sum from src/lib/math/PointMath.js: component-wise addition. -/
def PointMath.sum (p1 p2 : Point) : Point :=
  (p1.1 + p2.1, p1.2 + p2.2)

/-!
## Spline fitting (the spline module)

The functions below embed the current generation of the spline module:
performCatmullRom, performCanonicalSpline, buildSimplePathDString (with its
`individual` flag) and buildSplineDString (one move-to prefix, then the
per-segment tokens with individual=false, joined by single spaces).
-/

/-- The body of the performCatmullRom loop at index i, producing the cubic
segment [p1, cp1, cp2, p2].  Indexing uses `getD` with an irrelevant default:
the loop only reads in-range indices (`i - 1` on ℕ is Math.max(i-1, 0)). -/
def catmullRomSegment (points : List Point) (tension : ℚ) (i : ℕ) : List Point :=
  let p0 := points.getD (i - 1) (0, 0)
  let p1 := points.getD i (0, 0)
  let p2 := points.getD (i + 1) (0, 0)
  let p3 := points.getD (min (i + 2) (points.length - 1)) (0, 0)
  let t1x := (p2.1 - p0.1) / 2 * tension
  let t1y := (p2.2 - p0.2) / 2 * tension
  let t2x := (p3.1 - p1.1) / 2 * tension
  let t2y := (p3.2 - p1.2) / 2 * tension
  let cp1 : Point := (p1.1 + t1x / 3, p1.2 + t1y / 3)
  let cp2 : Point := (p2.1 - t2x / 3, p2.2 - t2y / 3)
  [p1, cp1, cp2, p2]

/-- performCatmullRom: throws on an empty input, returns the input verbatim as a
single segment when fewer than 4 points, otherwise one cubic segment per
i in [0, n-2]. -/
def performCatmullRom (points : List Point) (tension : ℚ) :
    Except String (List (List Point)) :=
  if points.length = 0 then .error "At least 1 point required"
  else if points.length < 4 then .ok [points]
  else .ok ((List.range (points.length - 1)).map (catmullRomSegment points tension))

/-- The body of the performCanonicalSpline loop at index i (neighbors
p0 = points[i-1] .. p3 = points[i+2]). -/
def canonicalSplineSegment (points : List Point) (tension : ℚ) (i : ℕ) : List Point :=
  let p0 := points.getD (i - 1) (0, 0)
  let p1 := points.getD i (0, 0)
  let p2 := points.getD (i + 1) (0, 0)
  let p3 := points.getD (i + 2) (0, 0)
  let cp1x := p1.1 + (p2.1 - p0.1) / 6 * tension
  let cp1y := p1.2 + (p2.2 - p0.2) / 6 * tension
  let cp2x := p2.1 - (p3.1 - p1.1) / 6 * tension
  let cp2y := p2.2 - (p3.2 - p1.2) / 6 * tension
  [p1, (cp1x, cp1y), (cp2x, cp2y), p2]

/-- performCanonicalSpline: throws on an empty input, returns the input
verbatim as a single segment when fewer than 5 points, otherwise the loop runs
i = 1, ..., n-3 (the JS loop is for i = 1; i < n - 2), here written as
j = 0, ..., n-4 with i = j + 1. -/
def performCanonicalSpline (points : List Point) (tension : ℚ) :
    Except String (List (List Point)) :=
  if points.length = 0 then .error "At least 1 point required"
  else if points.length < 5 then .ok [points]
  else .ok ((List.range (points.length - 3)).map
    (fun j => canonicalSplineSegment points tension (j + 1)))

/-- Stand-in for the JS number-to-string conversion used by template literals.
The claims under verification are about the command structure of the emitted
path strings, not about decimal formatting, so any injective rendering works;
we use the stock `toString` of `ℚ`. -/
def numStr (q : ℚ) : String := toString q

/-- buildSimplePathDString (current generation, with the `individual` flag).
When `individual` is true the JS code prepends the PLAIN string
"M ${points[0][0]} ${points[0][1]} " - written with ordinary quotes, not
backquotes, so no interpolation happens; that literal text is reproduced
faithfully here (braces escaped).  buildSplineDString only ever passes
`individual = false`, where the prefix is the empty string. -/
def buildSimplePathDString (points : List Point) (individual : Bool) :
    Except String String :=
  if points.length > 4 then
    .error (toString points.length ++
      " points do not form a simple curve (line segment, quadratic bezier, cubic bezier). Consider using Catmull-Rom or canonical spline decomposition")
  else if ¬ (points.length = 2 ∨ points.length = 3 ∨ points.length = 4) then
    .error "# Points must be 2, 3, or 4. Note that <svg> does not support drawing a single point. Use a <circle> instead."
  else
    let s := if individual then "M \x24\x7bpoints[0][0]\x7d \x24\x7bpoints[0][1]\x7d " else ""
    match points with
    | [_, p1] =>
        .ok (s ++ ("L " ++ numStr p1.1 ++ " " ++ numStr p1.2))
    | [_, p1, p2] =>
        .ok (s ++ ("Q " ++ numStr p1.1 ++ " " ++ numStr p1.2 ++ " " ++
          numStr p2.1 ++ " " ++ numStr p2.2))
    | [_, p1, p2, p3] =>
        .ok (s ++ ("C " ++ numStr p1.1 ++ " " ++ numStr p1.2 ++ " " ++
          numStr p2.1 ++ " " ++ numStr p2.2 ++ " " ++
          numStr p3.1 ++ " " ++ numStr p3.2))
    | _ => .error "Unsupported number of points"

/-- buildSplineDString (current generation): decompose with Catmull-Rom, then
emit the move-to prefix M points[0][0] points[0][1] directly concatenated with
the segment tokens (individual = false), which are joined by single spaces. -/
def buildSplineDString (points : List Point) (tension : ℚ) :
    Except String String := do
  let decomposed ← performCatmullRom points tension
  let tokens ← decomposed.mapM (fun c => buildSimplePathDString c false)
  .ok ("M " ++ numStr (points.getD 0 (0, 0)).1 ++ " " ++
    numStr (points.getD 0 (0, 0)).2 ++ String.intercalate " " tokens)

/-!
## Path interpreter (executeSVGStateMachine, src/lib/SVGBuilder.js)
-/

/-- An SVGCommand: a command letter plus its numeric arguments.  Points are
destructured from `args` positionally; a missing argument (JS `undefined`) is
modelled as 0, which no claim under test exercises. -/
structure SVGCommand where
  name : String
  args : List ℚ
deriving DecidableEq, Repr

/-- The geometry primitives the state machine pushes.  `p1` fields are carried
exactly as the JS code stores `brushTip`, which may be null (`none`) when an
absolute drawing command runs before any move-to.  The ellipseArc case stores
the raw data object {absoluteStart, rX, rY, angle, largeArcFlag, sweepFlag,
absoluteEnd}; the flags are plain numbers copied from the argument list. -/
inductive Geometry
  | line (p1 : Option Point) (p2 : Point)
  | cubicBezier (p1 : Option Point) (cp1 cp2 p2 : Point)
  | quadraticBezier (p1 : Option Point) (cp p2 : Point)
  | ellipseArc (absoluteStart : Point) (rX rY angle largeArcFlag sweepFlag : ℚ)
      (absoluteEnd : Point)
deriving DecidableEq, Repr

/-- Reading `.p1` off a geometry object, with JS truthiness folded in: an
ellipseArc has no `p1` property (undefined, falsy), a null `p1` is falsy, and
a point array is always truthy.  Used by the Z/z branch. -/
def Geometry.p1Field : Geometry → Option Point
  | .line p1 _ => p1
  | .cubicBezier p1 _ _ _ => p1
  | .quadraticBezier p1 _ _ => p1
  | .ellipseArc _ _ _ _ _ _ _ => none

/-- The interpreter state: the accumulated geometry list (in emission order)
and the brush tip, null until the first point is established. -/
structure InterpState where
  geometry : List Geometry
  brushTip : Option Point
deriving DecidableEq, Repr

/-- The JS String.prototype.toUpperCase, character-wise upper-casing; written
structurally (the stock String.toUpper is extensionally the same function but
is defined by well-founded recursion, which blocks kernel evaluation). -/
def toUpperCaseJS (s : String) : String := ⟨s.data.map Char.toUpper⟩

/-- fromBrushTip: throws "Brush tip not set" when the brush tip is null,
otherwise adds the delta to it. -/
def fromBrushTip (brushTip : Option Point) (delta : Point) : Except String Point :=
  match brushTip with
  | none => .error "Brush tip not set"
  | some p => .ok (PointMath.sum p delta)

/-- shiftPointIfNeeded: an uppercase command name keeps the value absolute;
a lowercase one resolves it relative to the brush tip (which may throw). -/
def shiftPointIfNeeded (brushTip : Option Point) (commandName : String)
    (value : Point) : Except String Point :=
  if toUpperCaseJS commandName = commandName then .ok value
  else fromBrushTip brushTip value

/-- processCommand: one step of the state machine, by exact source case.
Notable source facts reproduced here:
* H/h and V/v read `brushTip[1]` / `brushTip[0]` while building the argument
  of shiftPointIfNeeded, so a null brush tip raises a TypeError there (the
  message is modelled as the corresponding node error text) before the
  "Brush tip not set" check can run;
* the A/a branch computes absoluteStart as shiftPointIfNeeded(name, [0,0]),
  which is the point (0,0) itself for the absolute form, and it never calls
  setBrushTip;
* the Z/z branch closes to geometry[0].p1 when geometry is nonempty and that
  property is truthy, and leaves the state alone otherwise. -/
def processCommand (st : InterpState) (command : SVGCommand) :
    Except String InterpState :=
  let arg := fun i => command.args.getD i 0
  match command.name with
  | "M" | "m" => do
      let point ← shiftPointIfNeeded st.brushTip command.name (arg 0, arg 1)
      .ok { st with brushTip := some point }
  | "L" | "l" => do
      let point ← shiftPointIfNeeded st.brushTip command.name (arg 0, arg 1)
      .ok ⟨st.geometry ++ [.line st.brushTip point], some point⟩
  | "H" | "h" =>
      match st.brushTip with
      | none => .error "TypeError: Cannot read properties of null (reading 1)"
      | some bt => do
          let point ← shiftPointIfNeeded st.brushTip command.name (arg 0, bt.2)
          .ok ⟨st.geometry ++ [.line st.brushTip point], some point⟩
  | "V" | "v" =>
      match st.brushTip with
      | none => .error "TypeError: Cannot read properties of null (reading 0)"
      | some bt => do
          let point ← shiftPointIfNeeded st.brushTip command.name (bt.1, arg 0)
          .ok ⟨st.geometry ++ [.line st.brushTip point], some point⟩
  | "C" | "c" => do
      let controlPoint1 ← shiftPointIfNeeded st.brushTip command.name (arg 0, arg 1)
      let controlPoint2 ← shiftPointIfNeeded st.brushTip command.name (arg 2, arg 3)
      let endPoint ← shiftPointIfNeeded st.brushTip command.name (arg 4, arg 5)
      .ok ⟨st.geometry ++ [.cubicBezier st.brushTip controlPoint1 controlPoint2 endPoint],
        some endPoint⟩
  | "Q" | "q" => do
      let controlPoint ← shiftPointIfNeeded st.brushTip command.name (arg 0, arg 1)
      let endPoint ← shiftPointIfNeeded st.brushTip command.name (arg 2, arg 3)
      .ok ⟨st.geometry ++ [.quadraticBezier st.brushTip controlPoint endPoint],
        some endPoint⟩
  | "A" | "a" => do
      let absoluteStart ← shiftPointIfNeeded st.brushTip command.name (0, 0)
      let absoluteEnd ← shiftPointIfNeeded st.brushTip command.name (arg 5, arg 6)
      .ok { st with geometry := st.geometry ++
        [.ellipseArc absoluteStart (arg 0) (arg 1) (arg 2) (arg 3) (arg 4) absoluteEnd] }
  | "Z" | "z" =>
      match (st.geometry.head?).bind Geometry.p1Field with
      | some p => .ok { st with geometry := st.geometry ++ [.line st.brushTip p] }
      | none => .ok st
  | _ => .error ("Unsupported SVG command: " ++ command.name)

/-- executeSVGStateMachine: run every command in order against the initial
state (no geometry, null brush tip) and return the geometry list. -/
def executeSVGStateMachine (svgCommands : List SVGCommand) :
    Except String (List Geometry) := do
  let st ← svgCommands.foldlM processCommand ⟨[], none⟩
  .ok st.geometry

/-!
## Bounding-box combination (combineBoundingBoxes, src/lib/SVGBuilder.js)
-/

/-- A JS number as the bounding-box combiner manipulates it: NaN, -Infinity,
a finite value, or Infinity. -/
inductive ERat
  | nan
  | negInf
  | fin (q : ℚ)
  | posInf
deriving DecidableEq, Repr

/-- Math.min: NaN is absorbing, otherwise -Infinity wins, Infinity loses. -/
def ERat.min : ERat → ERat → ERat
  | .nan, _ => .nan
  | _, .nan => .nan
  | .negInf, _ => .negInf
  | _, .negInf => .negInf
  | .posInf, b => b
  | a, .posInf => a
  | .fin a, .fin b => .fin (Min.min a b)

/-- Math.max: NaN is absorbing, otherwise Infinity wins, -Infinity loses. -/
def ERat.max : ERat → ERat → ERat
  | .nan, _ => .nan
  | _, .nan => .nan
  | .posInf, _ => .posInf
  | _, .posInf => .posInf
  | .negInf, b => b
  | a, .negInf => a
  | .fin a, .fin b => .fin (Max.max a b)

/-- IEEE addition on the modelled values: NaN propagates and opposite
infinities produce NaN. -/
def ERat.add : ERat → ERat → ERat
  | .nan, _ => .nan
  | _, .nan => .nan
  | .posInf, .negInf => .nan
  | .negInf, .posInf => .nan
  | .posInf, _ => .posInf
  | _, .posInf => .posInf
  | .negInf, _ => .negInf
  | _, .negInf => .negInf
  | .fin a, .fin b => .fin (a + b)

/-- IEEE negation on the modelled values. -/
def ERat.neg : ERat → ERat
  | .nan => .nan
  | .negInf => .posInf
  | .fin q => .fin (-q)
  | .posInf => .negInf

/-- IEEE subtraction, a - b = a + (-b). -/
def ERat.sub (a b : ERat) : ERat := a.add b.neg

/-- A box value as the combiner sees it; the fields can carry the IEEE
specials the combiner itself produces. -/
structure EBox where
  x : ERat
  y : ERat
  width : ERat
  height : ERat
deriving DecidableEq, Repr

/-- The body of the combiner loop: a null item is skipped, a present one
updates (minX, minY, maxX, maxY). -/
def combineStep (acc : ERat × ERat × ERat × ERat) (item : Option EBox) :
    ERat × ERat × ERat × ERat :=
  match item with
  | none => acc
  | some b =>
      (ERat.min acc.1 b.x, ERat.min acc.2.1 b.y,
       ERat.max acc.2.2.1 (ERat.add b.x b.width),
       ERat.max acc.2.2.2 (ERat.add b.y b.height))

/-- The loop of combineBoundingBoxes over the resolved item list, seeded with
minX = minY = Infinity and maxX = maxY = -Infinity, returning
{x: minX, y: minY, width: maxX - minX, height: maxY - minY}. -/
def combineItems (items : List (Option EBox)) : EBox :=
  let r := items.foldl combineStep (.posInf, .posInf, .negInf, .negInf)
  ⟨r.1, r.2.1, ERat.sub r.2.2.1 r.1, ERat.sub r.2.2.2 r.2.1⟩

/-- combineBoundingBoxes called variadically: `boxes` is the rest-argument
list, each entry a box object or null.  Since such an entry is never an
Array, the Array.isArray(boxes[0]) test fails and the items are the arguments
themselves.  Only the zero-argument call returns null. -/
def combineBoundingBoxes (boxes : List (Option EBox)) : Option EBox :=
  if boxes.length = 0 then none else some (combineItems boxes)

/-- combineBoundingBoxes called with one array argument `items`: the
rest-argument list is the one-element [items], so the length-0 test fails and
Array.isArray picks out `items` as the item list; null is never returned. -/
def combineBoundingBoxesOnArray (items : List (Option EBox)) : Option EBox :=
  some (combineItems items)

/-- A finite bounding box {x, y, width, height}, the shape the callers pass
in. -/
structure BoundingBox where
  x : ℚ
  y : ℚ
  width : ℚ
  height : ℚ
deriving DecidableEq, Repr

/-- View a finite box as a combiner operand. -/
def BoundingBox.toE (b : BoundingBox) : EBox :=
  ⟨.fin b.x, .fin b.y, .fin b.width, .fin b.height⟩

/-- m is the minimum of the list xs. -/
def IsMinOf (m : ℚ) (xs : List ℚ) : Prop := m ∈ xs ∧ ∀ q ∈ xs, m ≤ q

/-- m is the maximum of the list xs. -/
def IsMaxOf (m : ℚ) (xs : List ℚ) : Prop := m ∈ xs ∧ ∀ q ∈ xs, q ≤ m

/-- A concrete five-point zig-zag input used by witness instances. -/
def pts5 : List Point := [(0, 0), (1, 1), (2, 0), (3, 1), (4, 0)]

/-!
## Helper lemmas
-/

/-- Reading an in-range index of a mapped range gives the function value. -/
theorem getD_map_range {α : Type} (f : ℕ → α) (k i : ℕ) (d : α) (h : i < k) :
    ((List.range k).map f).getD i d = f i := by
  rw [List.getD_eq_getElem?_getD]
  simp [List.getElem?_map, List.getElem?_range, h]

/-- mapM over Except succeeds when every element succeeds, and every output is
the output of some input. -/
theorem mapM_ok_of_forall_ok {α β : Type} (f : α → Except String β) :
    ∀ (l : List α), (∀ x ∈ l, ∃ y, f x = .ok y) →
      ∃ ys, l.mapM f = .ok ys ∧ ys.length = l.length ∧
        ∀ y ∈ ys, ∃ x ∈ l, f x = .ok y := by
  intro l
  induction l with
  | nil => intro _; exact ⟨[], rfl, rfl, by simp⟩
  | cons a l ih =>
    intro h
    obtain ⟨y, hy⟩ := h a (by simp)
    obtain ⟨ys, hys, hlen, hmem⟩ := ih (fun x hx => h x (by simp [hx]))
    refine ⟨y :: ys, ?_, by simp [hlen], ?_⟩
    · rw [List.mapM_cons, hy, hys]
      rfl
    · intro z hz
      rcases List.mem_cons.mp hz with hz | hz
      · exact ⟨a, by simp, hz ▸ hy⟩
      · obtain ⟨x, hx, hfx⟩ := hmem z hz
        exact ⟨x, by simp [hx], hfx⟩

/-- Binding a successful Except result just applies the continuation. -/
theorem except_bind_ok {α β : Type} (a : α) (f : α → Except String β) :
    (Except.ok a >>= f) = f a := rfl

/-- String concatenation is associative. -/
theorem strAppendAssoc : ∀ (a b c : String), a ++ b ++ c = a ++ (b ++ c)
  | ⟨a⟩, ⟨b⟩, ⟨c⟩ => congrArg String.mk (List.append_assoc a b c)

/-- Serializing any valid simple path with individual = false yields a token
that opens with the line-to, quadratic or cubic command letter - never a
move-to. -/
theorem tokenOfSimple (seg : List Point)
    (h : seg.length = 2 ∨ seg.length = 3 ∨ seg.length = 4) :
    ∃ y, buildSimplePathDString seg false = .ok y ∧
      ((∃ r, y = "L " ++ r) ∨ (∃ r, y = "Q " ++ r) ∨ (∃ r, y = "C " ++ r)) := by
  rcases seg with _ | ⟨a, _ | ⟨b, _ | ⟨c, _ | ⟨d, rest⟩⟩⟩⟩
  · simp at h
  · simp at h
  · exact ⟨"L " ++ numStr b.1 ++ " " ++ numStr b.2, rfl,
      .inl ⟨numStr b.1 ++ (" " ++ numStr b.2), by rw [strAppendAssoc, strAppendAssoc]⟩⟩
  · exact ⟨"Q " ++ numStr b.1 ++ " " ++ numStr b.2 ++ " " ++ numStr c.1 ++ " " ++ numStr c.2,
      rfl,
      .inr (.inl ⟨numStr b.1 ++ (" " ++ (numStr b.2 ++ (" " ++ (numStr c.1 ++ (" " ++ numStr c.2))))),
        by simp only [strAppendAssoc]⟩)⟩
  · rcases rest with _ | ⟨e, rest⟩
    · exact ⟨"C " ++ numStr b.1 ++ " " ++ numStr b.2 ++ " " ++ numStr c.1 ++ " " ++ numStr c.2 ++
        " " ++ numStr d.1 ++ " " ++ numStr d.2, rfl,
        .inr (.inr ⟨numStr b.1 ++ (" " ++ (numStr b.2 ++ (" " ++ (numStr c.1 ++ (" " ++
          (numStr c.2 ++ (" " ++ (numStr d.1 ++ (" " ++ numStr d.2))))))))),
          by simp only [strAppendAssoc]⟩)⟩
    · simp at h

/-!
## Claim theorems
-/

/-- C1: for every point list of length at least 4 and every tension,
performCatmullRom succeeds with exactly n-1 segments, each a 4-point cubic
whose first point is points[i] and whose last point is points[i+1]. -/
theorem catmullRom_interpolates (points : List Point) (tension : ℚ)
    (h4 : 4 ≤ points.length) :
    ∃ segs, performCatmullRom points tension = .ok segs ∧
      segs.length = points.length - 1 ∧
      ∀ i, i < points.length - 1 →
        (segs.getD i []).length = 4 ∧
        (segs.getD i []).head? = some (points.getD i (0, 0)) ∧
        (segs.getD i []).getLast? = some (points.getD (i + 1) (0, 0)) := by
  have h0 : ¬ points.length = 0 := by omega
  have hlt : ¬ points.length < 4 := by omega
  refine ⟨(List.range (points.length - 1)).map (catmullRomSegment points tension),
    by simp [performCatmullRom, h0, hlt], by simp, ?_⟩
  intro i hi
  rw [getD_map_range _ _ _ _ hi]
  exact ⟨rfl, rfl, rfl⟩

/-- C1 witness: the concrete square scenario, tension 1.0: three cubic
segments whose endpoints walk the square, with the full decomposition
evaluated explicitly. -/
theorem catmullRom_interpolates_witness :
    (∃ segs,
      performCatmullRom [((0 : ℚ), (0 : ℚ)), (10, 0), (10, 10), (0, 10)] 1 = .ok segs ∧
      segs.length = [((0 : ℚ), (0 : ℚ)), (10, 0), (10, 10), (0, 10)].length - 1 ∧
      ∀ i, i < [((0 : ℚ), (0 : ℚ)), (10, 0), (10, 10), (0, 10)].length - 1 →
        (segs.getD i []).length = 4 ∧
        (segs.getD i []).head? =
          some ([((0 : ℚ), (0 : ℚ)), (10, 0), (10, 10), (0, 10)].getD i (0, 0)) ∧
        (segs.getD i []).getLast? =
          some ([((0 : ℚ), (0 : ℚ)), (10, 0), (10, 10), (0, 10)].getD (i + 1) (0, 0))) ∧
    performCatmullRom [((0 : ℚ), (0 : ℚ)), (10, 0), (10, 10), (0, 10)] 1 =
      .ok [[(0, 0), (5/3, 0), (25/3, -5/3), (10, 0)],
           [(10, 0), (35/3, 5/3), (35/3, 25/3), (10, 10)],
           [(10, 10), (25/3, 35/3), (5/3, 10), (0, 10)]] :=
  ⟨catmullRom_interpolates _ 1 (by decide), by
    have hr : List.range 3 = [0, 1, 2] := by decide
    simp only [performCatmullRom]
    norm_num [hr, catmullRomSegment, List.getD_cons_zero, List.getD_cons_succ]⟩

/-- C9: a nonempty input shorter than the algorithm threshold (4 for
Catmull-Rom, 5 for Canonical Spline) is returned verbatim as the single
element of the result. -/
theorem shortInputs_passthrough (points : List Point) (tension : ℚ)
    (h : points ≠ []) :
    (points.length < 4 → performCatmullRom points tension = .ok [points]) ∧
    (points.length < 5 → performCanonicalSpline points tension = .ok [points]) := by
  have h0 : ¬ points.length = 0 := by
    simpa [List.length_eq_zero] using h
  constructor
  · intro hlt
    simp [performCatmullRom, h0, hlt]
  · intro hlt
    simp [performCanonicalSpline, h0, hlt]

/-- C9 witness: a two-point input passes through both fitters unchanged. -/
theorem shortInputs_passthrough_witness :
    performCatmullRom [((1 : ℚ), (2 : ℚ)), (3, 4)] 7 = .ok [[(1, 2), (3, 4)]] ∧
    performCanonicalSpline [((1 : ℚ), (2 : ℚ)), (3, 4)] 7 = .ok [[(1, 2), (3, 4)]] :=
  ⟨(shortInputs_passthrough _ 7 (by decide)).1 (by decide),
   (shortInputs_passthrough _ 7 (by decide)).2 (by decide)⟩

/-- C8: for at least 5 points, performCanonicalSpline succeeds with exactly
n-3 segments; the j-th (for the loop index i = j+1 ranging over [1, n-3]) is
[p1, p1 + tension*(p2-p0)/6, p2 - tension*(p3-p1)/6, p2] with
p0..p3 = points[i-1..i+2]; segment endpoints only use indices in [1, n-2],
never the first or the last input point. -/
theorem canonicalSpline_segments (points : List Point) (tension : ℚ)
    (h5 : 5 ≤ points.length) :
    ∃ segs, performCanonicalSpline points tension = .ok segs ∧
      segs.length = points.length - 3 ∧
      ∀ j, j < points.length - 3 →
        segs.getD j [] =
          [points.getD (j + 1) (0, 0),
           ((points.getD (j + 1) (0, 0)).1 +
              tension * ((points.getD (j + 2) (0, 0)).1 - (points.getD j (0, 0)).1) / 6,
            (points.getD (j + 1) (0, 0)).2 +
              tension * ((points.getD (j + 2) (0, 0)).2 - (points.getD j (0, 0)).2) / 6),
           ((points.getD (j + 2) (0, 0)).1 -
              tension * ((points.getD (j + 3) (0, 0)).1 - (points.getD (j + 1) (0, 0)).1) / 6,
            (points.getD (j + 2) (0, 0)).2 -
              tension * ((points.getD (j + 3) (0, 0)).2 - (points.getD (j + 1) (0, 0)).2) / 6),
           points.getD (j + 2) (0, 0)] ∧
        1 ≤ j + 1 ∧ j + 2 ≤ points.length - 2 := by
  have h0 : ¬ points.length = 0 := by omega
  have hlt : ¬ points.length < 5 := by omega
  refine ⟨(List.range (points.length - 3)).map
      (fun j => canonicalSplineSegment points tension (j + 1)),
    by simp [performCanonicalSpline, h0, hlt], by simp, ?_⟩
  intro j hj
  rw [getD_map_range _ _ _ _ hj]
  refine ⟨?_, by omega, by omega⟩
  show canonicalSplineSegment points tension (j + 1) = _
  simp only [canonicalSplineSegment, Nat.add_sub_cancel]
  refine congrArg₂ _ rfl (congrArg₂ _ ?_ (congrArg₂ _ ?_ rfl))
  · refine congrArg₂ _ ?_ ?_ <;> ring
  · refine congrArg₂ _ ?_ ?_ <;> ring

/-- C8 witness: the segment characterization instantiated at five concrete
zig-zag points with tension 1, plus the explicit evaluation of the fit. -/
theorem canonicalSpline_segments_witness :
    (∃ segs,
      performCanonicalSpline pts5 1 = .ok segs ∧
      segs.length = pts5.length - 3 ∧
      ∀ j, j < pts5.length - 3 →
        segs.getD j [] =
          [pts5.getD (j + 1) (0, 0),
           ((pts5.getD (j + 1) (0, 0)).1 +
              1 * ((pts5.getD (j + 2) (0, 0)).1 - (pts5.getD j (0, 0)).1) / 6,
            (pts5.getD (j + 1) (0, 0)).2 +
              1 * ((pts5.getD (j + 2) (0, 0)).2 - (pts5.getD j (0, 0)).2) / 6),
           ((pts5.getD (j + 2) (0, 0)).1 -
              1 * ((pts5.getD (j + 3) (0, 0)).1 - (pts5.getD (j + 1) (0, 0)).1) / 6,
            (pts5.getD (j + 2) (0, 0)).2 -
              1 * ((pts5.getD (j + 3) (0, 0)).2 - (pts5.getD (j + 1) (0, 0)).2) / 6),
           pts5.getD (j + 2) (0, 0)] ∧
        1 ≤ j + 1 ∧ j + 2 ≤ pts5.length - 2) ∧
    performCanonicalSpline pts5 1 =
      .ok [[(1, 1), (4/3, 1), (5/3, 0), (2, 0)],
           [(2, 0), (7/3, 0), (8/3, 1), (3, 1)]] :=
  ⟨canonicalSpline_segments pts5 1 (by decide), by
    have hr : List.range 2 = [0, 1] := by decide
    simp only [performCanonicalSpline, pts5]
    norm_num [hr, canonicalSplineSegment, List.getD_cons_zero, List.getD_cons_succ]⟩

/-- C2: buildSplineDString emits exactly one move-to, at the start, targeting
the first input point; after it come the segments' tokens, in order, joined by
single spaces, and every segment token opens with L, Q or C - no move-to is
ever emitted between consecutive segments. -/
theorem splineDString_oneMove (points : List Point) (tension : ℚ)
    (h2 : 2 ≤ points.length) :
    ∃ segs tokens,
      performCatmullRom points tension = .ok segs ∧
      segs.mapM (fun c => buildSimplePathDString c false) = .ok tokens ∧
      tokens.length = segs.length ∧
      buildSplineDString points tension =
        .ok ("M " ++ numStr (points.getD 0 (0, 0)).1 ++ " " ++
          numStr (points.getD 0 (0, 0)).2 ++ String.intercalate " " tokens) ∧
      ∀ tok ∈ tokens,
        (∃ r, tok = "L " ++ r) ∨ (∃ r, tok = "Q " ++ r) ∨ (∃ r, tok = "C " ++ r) := by
  have h0 : ¬ points.length = 0 := by omega
  have key : ∃ segs, performCatmullRom points tension = .ok segs ∧
      ∀ seg ∈ segs, seg.length = 2 ∨ seg.length = 3 ∨ seg.length = 4 := by
    by_cases hlt : points.length < 4
    · refine ⟨[points], by simp [performCatmullRom, h0, hlt], ?_⟩
      intro seg hs
      rw [List.mem_singleton] at hs
      subst hs
      omega
    · refine ⟨(List.range (points.length - 1)).map (catmullRomSegment points tension),
        by simp [performCatmullRom, h0, hlt], ?_⟩
      intro seg hs
      obtain ⟨i, _, rfl⟩ := List.mem_map.mp hs
      right; right
      simp [catmullRomSegment]
  obtain ⟨segs, hsegs, hshape⟩ := key
  obtain ⟨tokens, htok, hlen, hout⟩ :=
    mapM_ok_of_forall_ok (fun c => buildSimplePathDString c false) segs
      (fun seg hs => (tokenOfSimple seg (hshape seg hs)).imp (fun y hy => hy.1))
  refine ⟨segs, tokens, hsegs, htok, hlen, ?_, ?_⟩
  · simp only [buildSplineDString]
    rw [hsegs, except_bind_ok, htok, except_bind_ok]
  · intro tok htk
    obtain ⟨seg, hs, hf⟩ := hout tok htk
    obtain ⟨y, hy, hyshape⟩ := tokenOfSimple seg (hshape seg hs)
    rw [hy] at hf
    injection hf with hf
    rw [← hf]
    exact hyshape

/-- C2 witness: the square input at tension 1, with the hypothesis discharged
at a concrete list. -/
theorem splineDString_oneMove_witness :
    ∃ segs tokens,
      performCatmullRom [((0 : ℚ), (0 : ℚ)), (10, 0), (10, 10), (0, 10)] 1 = .ok segs ∧
      segs.mapM (fun c => buildSimplePathDString c false) = .ok tokens ∧
      tokens.length = segs.length ∧
      buildSplineDString [((0 : ℚ), (0 : ℚ)), (10, 0), (10, 10), (0, 10)] 1 =
        .ok ("M " ++
          numStr (([((0 : ℚ), (0 : ℚ)), (10, 0), (10, 10), (0, 10)] : List Point).getD 0 (0, 0)).1 ++
          " " ++
          numStr (([((0 : ℚ), (0 : ℚ)), (10, 0), (10, 10), (0, 10)] : List Point).getD 0 (0, 0)).2 ++
          String.intercalate " " tokens) ∧
      ∀ tok ∈ tokens,
        (∃ r, tok = "L " ++ r) ∨ (∃ r, tok = "Q " ++ r) ∨ (∃ r, tok = "C " ++ r) :=
  splineDString_oneMove [((0 : ℚ), (0 : ℚ)), (10, 0), (10, 10), (0, 10)] 1 (by decide)

/-- Unfolding the Z branch of processCommand. -/
theorem processCommand_Z (st : InterpState) (args : List ℚ) :
    processCommand st ⟨"Z", args⟩ =
      match (st.geometry.head?).bind Geometry.p1Field with
      | some p => .ok { st with geometry := st.geometry ++ [.line st.brushTip p] }
      | none => .ok st := rfl

/-- Unfolding the z branch of processCommand. -/
theorem processCommand_zLower (st : InterpState) (args : List ℚ) :
    processCommand st ⟨"z", args⟩ =
      match (st.geometry.head?).bind Geometry.p1Field with
      | some p => .ok { st with geometry := st.geometry ++ [.line st.brushTip p] }
      | none => .ok st := rfl

/-- C3 (code bug): on "M 5 5 A 1 2 0 1 0 20 20 L 30 30" the interpreter emits
the EllipseArc with absoluteStart = (0,0) - the value shiftPointIfNeeded
returns for the absolute form, not the cursor (5,5) - and never updates the
cursor, so the following line starts from the stale (5,5) instead of the arc
target (20,20); the relative form "a" does use the cursor as absoluteStart
(second run) but still leaves the cursor untouched. -/
theorem arcCommand_divergence :
    executeSVGStateMachine
        [⟨"M", [5, 5]⟩, ⟨"A", [1, 2, 0, 1, 0, 20, 20]⟩, ⟨"L", [30, 30]⟩] =
      .ok [.ellipseArc (0, 0) 1 2 0 1 0 (20, 20), .line (some (5, 5)) (30, 30)] ∧
    executeSVGStateMachine
        [⟨"M", [5, 5]⟩, ⟨"a", [1, 2, 0, 1, 0, 15, 15]⟩, ⟨"L", [30, 30]⟩] =
      .ok [.ellipseArc (5, 5) 1 2 0 1 0 (20, 20), .line (some (5, 5)) (30, 30)] ∧
    (((0 : ℚ), (0 : ℚ)) : Point) ≠ (5, 5) ∧
    (((5 : ℚ), (5 : ℚ)) : Point) ≠ (20, 20) := by
  refine ⟨rfl, ?_, by decide, by decide⟩
  have h1 : PointMath.sum (5, 5) (0, 0) = ((5 : ℚ), (5 : ℚ)) := by
    norm_num [PointMath.sum]
  have h2 : PointMath.sum (5, 5) (15, 15) = ((20 : ℚ), (20 : ℚ)) := by
    norm_num [PointMath.sum]
  have s2 : processCommand ⟨[], some ((5 : ℚ), (5 : ℚ))⟩ ⟨"a", [1, 2, 0, 1, 0, 15, 15]⟩ =
      .ok ⟨[.ellipseArc (PointMath.sum (5, 5) (0, 0)) 1 2 0 1 0
        (PointMath.sum (5, 5) (15, 15))], some (5, 5)⟩ := rfl
  rw [h1, h2] at s2
  simp only [executeSVGStateMachine, List.foldlM, except_bind_ok, pure_bind, s2,
    show processCommand ⟨[], none⟩ ⟨"M", [5, 5]⟩ = .ok ⟨[], some ((5 : ℚ), (5 : ℚ))⟩ from rfl,
    show processCommand ⟨[.ellipseArc (5, 5) 1 2 0 1 0 (20, 20)], some ((5 : ℚ), (5 : ℚ))⟩
        ⟨"L", [30, 30]⟩ =
      .ok ⟨[.ellipseArc (5, 5) 1 2 0 1 0 (20, 20), .line (some (5, 5)) (30, 30)],
        some (30, 30)⟩ from rfl]

/-- C4 counterexample: interpreting the single command "L 5 5" does NOT raise
the cursor-not-set error; it succeeds, emitting a Line whose start point is
null. -/
theorem cursorNotSet_counterexample :
    executeSVGStateMachine [⟨"L", [5, 5]⟩] = .ok [.line none (5, 5)] ∧
    (Except.ok [Geometry.line none (5, 5)] :
        Except String (List Geometry)) ≠ .error "Brush tip not set" :=
  ⟨rfl, by decide⟩

/-- C4 (amended): the cursor-not-set error is raised only when a relative
l/c/q/a command resolves a coordinate against the unset cursor; H/h/V/v
before any move-to fail with a null-dereference TypeError instead, and the
absolute forms (e.g. "L 5 5") do not fail at all. -/
theorem cursorNotSet_behavior :
    (∀ (nm : String) (args : List ℚ) (rest : List SVGCommand),
      (nm = "l" ∨ nm = "c" ∨ nm = "q" ∨ nm = "a") →
      executeSVGStateMachine (⟨nm, args⟩ :: rest) = .error "Brush tip not set") ∧
    (∀ (nm : String) (args : List ℚ) (rest : List SVGCommand),
      (nm = "H" ∨ nm = "h" ∨ nm = "V" ∨ nm = "v") →
      ∃ msg, executeSVGStateMachine (⟨nm, args⟩ :: rest) = .error msg ∧
        msg ≠ "Brush tip not set") ∧
    executeSVGStateMachine [⟨"L", [5, 5]⟩] = .ok [.line none (5, 5)] := by
  refine ⟨?_, ?_, rfl⟩
  · rintro nm args rest (rfl | rfl | rfl | rfl) <;> rfl
  · rintro nm args rest (rfl | rfl | rfl | rfl) <;> exact ⟨_, rfl, by decide⟩

/-- C4 witness: the amended error behavior at concrete commands. -/
theorem cursorNotSet_behavior_witness :
    executeSVGStateMachine [⟨"l", [5, 5]⟩] = .error "Brush tip not set" ∧
    ∃ msg, executeSVGStateMachine [⟨"H", [5]⟩] = .error msg ∧
      msg ≠ "Brush tip not set" :=
  ⟨cursorNotSet_behavior.1 "l" [5, 5] [] (Or.inl rfl),
   cursorNotSet_behavior.2.1 "H" [5] [] (Or.inl rfl)⟩

/-- C5 counterexample: after "M 0 0 M 5 5 L 10 10 Z" the close line targets
(5,5) - the first emitted primitive's start - not the first move-to point
(0,0), which the claim designates as path-start. -/
theorem closePath_counterexample :
    executeSVGStateMachine
        [⟨"M", [0, 0]⟩, ⟨"M", [5, 5]⟩, ⟨"L", [10, 10]⟩, ⟨"Z", []⟩] =
      .ok [.line (some (5, 5)) (10, 10), .line (some (10, 10)) (5, 5)] ∧
    (((5 : ℚ), (5 : ℚ)) : Point) ≠ ((0 : ℚ), (0 : ℚ)) :=
  ⟨rfl, by decide⟩

/-- C5 (amended): Z/z appends Line{cursor, geometry[0].p1} when the geometry
list is nonempty and its first entry has a non-null start point (which equals
the first move-to target only when no intervening move-to precedes the first
drawing command), and leaves the state unchanged otherwise; the cursor is
never modified.  The concrete scenario "M 0 0 L 10 0 L 10 10 Z" holds as
claimed. -/
theorem closePath_behavior :
    (∀ (st : InterpState) (nm : String) (args : List ℚ) (p : Point),
      (nm = "Z" ∨ nm = "z") →
      (st.geometry.head?).bind Geometry.p1Field = some p →
      processCommand st ⟨nm, args⟩ =
        .ok ⟨st.geometry ++ [.line st.brushTip p], st.brushTip⟩) ∧
    (∀ (st : InterpState) (nm : String) (args : List ℚ),
      (nm = "Z" ∨ nm = "z") →
      (st.geometry.head?).bind Geometry.p1Field = none →
      processCommand st ⟨nm, args⟩ = .ok st) ∧
    executeSVGStateMachine
        [⟨"M", [0, 0]⟩, ⟨"L", [10, 0]⟩, ⟨"L", [10, 10]⟩, ⟨"Z", []⟩] =
      .ok [.line (some (0, 0)) (10, 0), .line (some (10, 0)) (10, 10),
        .line (some (10, 10)) (0, 0)] := by
  refine ⟨?_, ?_, rfl⟩
  · rintro st nm args p (rfl | rfl) hp
    · rw [processCommand_Z, hp]
    · rw [processCommand_zLower, hp]
  · rintro st nm args (rfl | rfl) hp
    · rw [processCommand_Z, hp]
    · rw [processCommand_zLower, hp]

/-- C5 witness: the amended close behavior applied at concrete states - a
state whose first primitive has a start point, one whose geometry is empty,
and one whose first primitive is an arc (no p1 property). -/
theorem closePath_behavior_witness :
    processCommand ⟨[.line (some (1, 2)) (3, 4)], some (3, 4)⟩ ⟨"Z", []⟩ =
      .ok ⟨[.line (some (1, 2)) (3, 4), .line (some (3, 4)) (1, 2)], some (3, 4)⟩ ∧
    processCommand ⟨[], some (3, 4)⟩ ⟨"Z", []⟩ = .ok ⟨[], some (3, 4)⟩ ∧
    processCommand ⟨[.ellipseArc (0, 0) 1 1 0 0 0 (2, 2)], some (2, 2)⟩ ⟨"z", []⟩ =
      .ok ⟨[.ellipseArc (0, 0) 1 1 0 0 0 (2, 2)], some (2, 2)⟩ :=
  ⟨closePath_behavior.1 ⟨[.line (some (1, 2)) (3, 4)], some (3, 4)⟩ "Z" [] (1, 2)
      (Or.inl rfl) rfl,
   closePath_behavior.2.1 ⟨[], some (3, 4)⟩ "Z" [] (Or.inl rfl) rfl,
   closePath_behavior.2.1 ⟨[.ellipseArc (0, 0) 1 1 0 0 0 (2, 2)], some (2, 2)⟩ "z" []
      (Or.inr rfl) rfl⟩

/-- A skipped (null) item leaves the combiner accumulator unchanged. -/
theorem combineStep_none (acc : ERat × ERat × ERat × ERat) :
    combineStep acc none = acc := rfl

/-- The combiner fold only sees the present items. -/
theorem foldl_combineStep_filterMap :
    ∀ (L : List (Option EBox)) (acc : ERat × ERat × ERat × ERat),
      L.foldl combineStep acc =
        (L.filterMap id).foldl (fun a b => combineStep a (some b)) acc
  | [], _ => rfl
  | none :: L, acc => by
      rw [List.foldl_cons, combineStep_none, foldl_combineStep_filterMap L acc]
      congr 1
  | some b :: L, acc => by
      rw [List.foldl_cons, foldl_combineStep_filterMap L (combineStep acc (some b))]
      rw [show (some b :: L).filterMap id = b :: L.filterMap id by simp]
      rfl

/-- Once the accumulator is finite, the four components evolve as four
independent min/max folds over the finite boxes. -/
theorem foldl_combineStep_fin :
    ∀ (P : List BoundingBox) (a b c d : ℚ),
      (P.map BoundingBox.toE).foldl (fun acc bb => combineStep acc (some bb))
          (.fin a, .fin b, .fin c, .fin d) =
        (.fin ((P.map BoundingBox.x).foldl Min.min a),
         .fin ((P.map BoundingBox.y).foldl Min.min b),
         .fin ((P.map (fun bb => bb.x + bb.width)).foldl Max.max c),
         .fin ((P.map (fun bb => bb.y + bb.height)).foldl Max.max d))
  | [], _, _, _, _ => rfl
  | p :: P, a, b, c, d => by
      simp only [List.map_cons, List.foldl_cons]
      exact foldl_combineStep_fin P (Min.min a p.x) (Min.min b p.y)
        (Max.max c (p.x + p.width)) (Max.max d (p.y + p.height))

/-- Folding the infinite seed into a nonempty run of finite boxes: the first
box replaces the seed, the rest fold as min/max. -/
theorem foldl_combineStep_start (p : BoundingBox) (P : List BoundingBox) :
    ((p :: P).map BoundingBox.toE).foldl (fun acc bb => combineStep acc (some bb))
        (.posInf, .posInf, .negInf, .negInf) =
      (.fin ((P.map BoundingBox.x).foldl Min.min p.x),
       .fin ((P.map BoundingBox.y).foldl Min.min p.y),
       .fin ((P.map (fun bb => bb.x + bb.width)).foldl Max.max (p.x + p.width)),
       .fin ((P.map (fun bb => bb.y + bb.height)).foldl Max.max (p.y + p.height))) := by
  simp only [List.map_cons, List.foldl_cons]
  exact foldl_combineStep_fin P p.x p.y (p.x + p.width) (p.y + p.height)

/-- A left fold by min computes the minimum of the seed and the list. -/
theorem foldl_min_isMin (a : ℚ) (qs : List ℚ) :
    IsMinOf (qs.foldl Min.min a) (a :: qs) := by
  induction qs generalizing a with
  | nil =>
    refine ⟨by simp, ?_⟩
    intro q hq
    rw [List.mem_singleton] at hq
    simp only [List.foldl_nil]
    exact hq ▸ le_refl a
  | cons q qs ih =>
    obtain ⟨hmem, hle⟩ := ih (Min.min a q)
    refine ⟨?_, ?_⟩
    · simp only [List.foldl_cons]
      rcases List.mem_cons.mp hmem with hm | hm
      · rcases min_choice a q with hh | hh
        · rw [hm, hh]; exact List.mem_cons_self _ _
        · rw [hm, hh]
          exact List.mem_cons.mpr (Or.inr (List.mem_cons_self _ _))
      · exact List.mem_cons.mpr (Or.inr (List.mem_cons.mpr (Or.inr hm)))
    · intro r hr
      simp only [List.foldl_cons]
      rcases List.mem_cons.mp hr with hr1 | hr2
      · rw [hr1]
        exact le_trans (hle _ (List.mem_cons_self _ _)) (min_le_left a q)
      rcases List.mem_cons.mp hr2 with hr2a | hr3
      · rw [hr2a]
        exact le_trans (hle _ (List.mem_cons_self _ _)) (min_le_right a q)
      · exact hle r (List.mem_cons.mpr (Or.inr hr3))

/-- A left fold by max computes the maximum of the seed and the list. -/
theorem foldl_max_isMax (a : ℚ) (qs : List ℚ) :
    IsMaxOf (qs.foldl Max.max a) (a :: qs) := by
  induction qs generalizing a with
  | nil =>
    refine ⟨by simp, ?_⟩
    intro q hq
    rw [List.mem_singleton] at hq
    simp only [List.foldl_nil]
    exact hq ▸ le_refl a
  | cons q qs ih =>
    obtain ⟨hmem, hle⟩ := ih (Max.max a q)
    refine ⟨?_, ?_⟩
    · simp only [List.foldl_cons]
      rcases List.mem_cons.mp hmem with hm | hm
      · rcases max_choice a q with hh | hh
        · rw [hm, hh]; exact List.mem_cons_self _ _
        · rw [hm, hh]
          exact List.mem_cons.mpr (Or.inr (List.mem_cons_self _ _))
      · exact List.mem_cons.mpr (Or.inr (List.mem_cons.mpr (Or.inr hm)))
    · intro r hr
      simp only [List.foldl_cons]
      rcases List.mem_cons.mp hr with hr1 | hr2
      · rw [hr1]
        exact le_trans (le_max_left a q) (hle _ (List.mem_cons_self _ _))
      rcases List.mem_cons.mp hr2 with hr2a | hr3
      · rw [hr2a]
        exact le_trans (le_max_right a q) (hle _ (List.mem_cons_self _ _))
      · exact hle r (List.mem_cons.mpr (Or.inr hr3))

/-- C10: for every non-empty argument list of boxes-or-nulls, the array call
form and the variadic call form of combineBoundingBoxes agree. -/
theorem combineBoundingBoxes_callForms (L : List (Option EBox)) (h : L ≠ []) :
    combineBoundingBoxesOnArray L = combineBoundingBoxes L := by
  have h0 : ¬ L.length = 0 := by simpa [List.length_eq_zero] using h
  simp [combineBoundingBoxesOnArray, combineBoundingBoxes, h0]

/-- C10 witness: the two call forms agree on a concrete one-box list. -/
theorem combineBoundingBoxes_callForms_witness :
    combineBoundingBoxesOnArray [some (BoundingBox.mk 0 0 1 1).toE] =
      combineBoundingBoxes [some (BoundingBox.mk 0 0 1 1).toE] :=
  combineBoundingBoxes_callForms _ (by decide)

/-- C6 counterexample: a list whose only entry is null does not combine to
null; it yields the degenerate box {x: Infinity, y: Infinity,
width: -Infinity, height: -Infinity}. -/
theorem combine_allAbsent_counterexample :
    combineBoundingBoxesOnArray [none] =
      some ⟨.posInf, .posInf, .negInf, .negInf⟩ ∧
    combineBoundingBoxesOnArray [none] ≠ none :=
  ⟨rfl, by decide⟩

/-- C6 (amended): null is returned only by the zero-argument variadic call;
an all-null (or empty) item list yields the degenerate box
{∞, ∞, -∞, -∞}; and when at least one entry is present, the result is the
minimal rectangle: x and y are the minima of the present boxes' origins and
width/height span to the maxima of their extents. -/
theorem combine_behavior :
    combineBoundingBoxes ([] : List (Option EBox)) = none ∧
    (∀ L : List (Option EBox), (∀ e ∈ L, e = none) →
      combineBoundingBoxesOnArray L =
        some ⟨.posInf, .posInf, .negInf, .negInf⟩) ∧
    (∀ (L : List (Option BoundingBox)) (p : BoundingBox) (P : List BoundingBox),
      L.filterMap id = p :: P →
      ∃ mX mY MX MY,
        combineBoundingBoxesOnArray (L.map (Option.map BoundingBox.toE)) =
          some ⟨.fin mX, .fin mY, .fin (MX - mX), .fin (MY - mY)⟩ ∧
        IsMinOf mX ((L.filterMap id).map BoundingBox.x) ∧
        IsMinOf mY ((L.filterMap id).map BoundingBox.y) ∧
        IsMaxOf MX ((L.filterMap id).map (fun b => b.x + b.width)) ∧
        IsMaxOf MY ((L.filterMap id).map (fun b => b.y + b.height))) := by
  refine ⟨rfl, ?_, ?_⟩
  · intro L hall
    have hnil : L.filterMap id = [] := by
      rw [List.filterMap_eq_nil_iff]
      intro e he
      simpa using hall e he
    show some (combineItems L) = _
    simp only [combineItems]
    rw [foldl_combineStep_filterMap, hnil]
    rfl
  · intro L p P hPP
    have hmapfm : (L.map (Option.map BoundingBox.toE)).filterMap id =
        (L.filterMap id).map BoundingBox.toE := by
      rw [List.filterMap_map, List.map_filterMap]
      simp
    refine ⟨(P.map BoundingBox.x).foldl Min.min p.x,
            (P.map BoundingBox.y).foldl Min.min p.y,
            (P.map (fun b => b.x + b.width)).foldl Max.max (p.x + p.width),
            (P.map (fun b => b.y + b.height)).foldl Max.max (p.y + p.height),
            ?_, ?_, ?_, ?_, ?_⟩
    · show some (combineItems _) = _
      simp only [combineItems]
      rw [foldl_combineStep_filterMap, hmapfm, hPP, foldl_combineStep_start]
      simp [ERat.sub, ERat.neg, ERat.add, sub_eq_add_neg]
    · rw [hPP, List.map_cons]
      exact foldl_min_isMin p.x (P.map BoundingBox.x)
    · rw [hPP, List.map_cons]
      exact foldl_min_isMin p.y (P.map BoundingBox.y)
    · rw [hPP, List.map_cons]
      exact foldl_max_isMax (p.x + p.width) (P.map (fun b => b.x + b.width))
    · rw [hPP, List.map_cons]
      exact foldl_max_isMax (p.y + p.height) (P.map (fun b => b.y + b.height))

/-- C6 witness: the amended behavior at concrete inputs - an all-null pair
and the three-entry list with one null. -/
theorem combine_behavior_witness :
    combineBoundingBoxesOnArray [none, none] =
      some ⟨.posInf, .posInf, .negInf, .negInf⟩ ∧
    (∃ mX mY MX MY,
      combineBoundingBoxesOnArray
          (([some ⟨0, 0, 10, 5⟩, none, some ⟨5, -5, 10, 10⟩] :
            List (Option BoundingBox)).map (Option.map BoundingBox.toE)) =
        some ⟨.fin mX, .fin mY, .fin (MX - mX), .fin (MY - mY)⟩ ∧
      IsMinOf mX ((([some ⟨0, 0, 10, 5⟩, none, some ⟨5, -5, 10, 10⟩] :
        List (Option BoundingBox)).filterMap id).map BoundingBox.x) ∧
      IsMinOf mY ((([some ⟨0, 0, 10, 5⟩, none, some ⟨5, -5, 10, 10⟩] :
        List (Option BoundingBox)).filterMap id).map BoundingBox.y) ∧
      IsMaxOf MX ((([some ⟨0, 0, 10, 5⟩, none, some ⟨5, -5, 10, 10⟩] :
        List (Option BoundingBox)).filterMap id).map (fun b => b.x + b.width)) ∧
      IsMaxOf MY ((([some ⟨0, 0, 10, 5⟩, none, some ⟨5, -5, 10, 10⟩] :
        List (Option BoundingBox)).filterMap id).map (fun b => b.y + b.height))) :=
  ⟨combine_behavior.2.1 [none, none] (by decide),
   combine_behavior.2.2 [some ⟨0, 0, 10, 5⟩, none, some ⟨5, -5, 10, 10⟩]
     ⟨0, 0, 10, 5⟩ [⟨5, -5, 10, 10⟩] (by decide)⟩

/-- Evaluating the combiner loop on two finite boxes. -/
theorem combineItems_two_fin (p q : BoundingBox) :
    combineItems [some p.toE, some q.toE] =
      ⟨.fin (Min.min p.x q.x), .fin (Min.min p.y q.y),
       .fin (Max.max (p.x + p.width) (q.x + q.width) + -(Min.min p.x q.x)),
       .fin (Max.max (p.y + p.height) (q.y + q.height) + -(Min.min p.y q.y))⟩ := rfl

/-- Evaluating the combiner loop when the first operand is an already
combined (finite-field) box. -/
theorem combineItems_finBox_fin (x y w h : ℚ) (q : BoundingBox) :
    combineItems [some ⟨.fin x, .fin y, .fin w, .fin h⟩, some q.toE] =
      ⟨.fin (Min.min x q.x), .fin (Min.min y q.y),
       .fin (Max.max (x + w) (q.x + q.width) + -(Min.min x q.x)),
       .fin (Max.max (y + h) (q.y + q.height) + -(Min.min y q.y))⟩ := rfl

/-- Evaluating the combiner loop when the second operand is an already
combined (finite-field) box. -/
theorem combineItems_fin_finBox (p : BoundingBox) (x y w h : ℚ) :
    combineItems [some p.toE, some ⟨.fin x, .fin y, .fin w, .fin h⟩] =
      ⟨.fin (Min.min p.x x), .fin (Min.min p.y y),
       .fin (Max.max (p.x + p.width) (x + w) + -(Min.min p.x x)),
       .fin (Max.max (p.y + p.height) (y + h) + -(Min.min p.y y))⟩ := rfl

/-- Evaluating the combiner loop on a box and a null. -/
theorem combineItems_fin_none (p : BoundingBox) :
    combineItems [some p.toE, none] =
      ⟨.fin p.x, .fin p.y, .fin (p.x + p.width + -p.x),
       .fin (p.y + p.height + -p.y)⟩ := rfl

/-- Evaluating the combiner loop on a null and a box. -/
theorem combineItems_none_fin (p : BoundingBox) :
    combineItems [none, some p.toE] =
      ⟨.fin p.x, .fin p.y, .fin (p.x + p.width + -p.x),
       .fin (p.y + p.height + -p.y)⟩ := rfl

/-- C7 counterexample: with a = b = null and c = {x:0, y:0, width:10,
height:5}, combine(combine(a,b),c) feeds the degenerate {∞,∞,-∞,-∞} box back
into the loop and produces NaN width/height, while combine(a,combine(b,c))
returns c - associativity with null treated as an identity fails. -/
theorem combine_assoc_counterexample :
    combineBoundingBoxes [some (combineItems [none, none]),
        some (BoundingBox.mk 0 0 10 5).toE] ≠
      combineBoundingBoxes [none,
        some (combineItems [none, some (BoundingBox.mk 0 0 10 5).toE])] := by
  decide

/-- C7 (amended): on actual (non-null) boxes the combination is associative
and commutative, and null is a left and right identity; the identity and
associativity laws fail once the degenerate all-null result is itself fed
back in. -/
theorem combine_assoc_comm_identity (a b c : BoundingBox) :
    combineBoundingBoxes [some (combineItems [some a.toE, some b.toE]), some c.toE] =
      combineBoundingBoxes [some a.toE, some (combineItems [some b.toE, some c.toE])] ∧
    combineBoundingBoxes [some a.toE, some b.toE] =
      combineBoundingBoxes [some b.toE, some a.toE] ∧
    combineBoundingBoxes [some a.toE, none] = some a.toE ∧
    combineBoundingBoxes [none, some a.toE] = some a.toE := by
  have hvar : ∀ (u v : Option EBox),
      combineBoundingBoxes [u, v] = some (combineItems [u, v]) := fun _ _ => rfl
  refine ⟨?_, ?_, ?_, ?_⟩
  · rw [hvar, hvar, combineItems_two_fin a b, combineItems_two_fin b c,
      combineItems_finBox_fin, combineItems_fin_finBox]
    simp only [Option.some.injEq, EBox.mk.injEq, ERat.fin.injEq]
    refine ⟨min_assoc _ _ _, min_assoc _ _ _, ?_, ?_⟩
    · have e1 : Min.min a.x b.x +
          (Max.max (a.x + a.width) (b.x + b.width) + -(Min.min a.x b.x)) =
          Max.max (a.x + a.width) (b.x + b.width) := by ring
      have e2 : Min.min b.x c.x +
          (Max.max (b.x + b.width) (c.x + c.width) + -(Min.min b.x c.x)) =
          Max.max (b.x + b.width) (c.x + c.width) := by ring
      rw [e1, e2, max_assoc, min_assoc]
    · have e1 : Min.min a.y b.y +
          (Max.max (a.y + a.height) (b.y + b.height) + -(Min.min a.y b.y)) =
          Max.max (a.y + a.height) (b.y + b.height) := by ring
      have e2 : Min.min b.y c.y +
          (Max.max (b.y + b.height) (c.y + c.height) + -(Min.min b.y c.y)) =
          Max.max (b.y + b.height) (c.y + c.height) := by ring
      rw [e1, e2, max_assoc, min_assoc]
  · rw [hvar, hvar, combineItems_two_fin a b, combineItems_two_fin b a]
    simp only [Option.some.injEq, EBox.mk.injEq, ERat.fin.injEq]
    refine ⟨min_comm _ _, min_comm _ _, ?_, ?_⟩
    · rw [min_comm a.x b.x, max_comm (a.x + a.width) (b.x + b.width)]
    · rw [min_comm a.y b.y, max_comm (a.y + a.height) (b.y + b.height)]
  · rw [hvar, combineItems_fin_none]
    simp only [BoundingBox.toE, Option.some.injEq, EBox.mk.injEq, ERat.fin.injEq]
    exact ⟨trivial, trivial, by ring, by ring⟩
  · rw [hvar, combineItems_none_fin]
    simp only [BoundingBox.toE, Option.some.injEq, EBox.mk.injEq, ERat.fin.injEq]
    exact ⟨trivial, trivial, by ring, by ring⟩

end SvgDesigner
